import Mathlib

/-!
# fastoredis: the IServer facade (src/core/iserver.cpp)

A shallow embedding of `IServer`: the dispatcher methods, the event router
`customEvent`, the history handler, the constructor and the two static
synchronisation functions, together with the part of the QObject connection
table they act on.

* A method body is a function returning the list of observable effects in
  program order (signal emissions, events posted with `postEvent`, logged
  errors, the final call of the base class `customEvent`).
* The connection table is a list of connections in connection order.
* The delivery of a signal over the table is depth first, as in Qt for direct
  connections; it carries a flag telling whether it returned, and a
  delivery that does not return stops everything that would come after it.
-/

namespace fastoredis

/-- Identity of a QObject (an IServer or an IDriver): stands for the object pointer. -/
abbrev QObjectId := Nat

/-- The class common::ErrorValue as far as iserver.cpp reads it: a description
and the flag returned by isError(). -/
structure ErrorValue where
  description : String
  isError : Bool
deriving DecidableEq, Repr

/-- The pointer type common::ErrorValueSPtr: a null pointer is none. -/
abbrev ErrorValueSPtr := Option ErrorValue

/-- Modelled from the spec: common::convertToString is declared in
common/qt/convert_string.h, outside src. Paths and commands are opaque text,
so the conversion from QString keeps the text. -/
def convertToString (s : String) : String := s

/-- The class FastoObject is only passed around by pointer here. -/
abbrev FastoObject := Nat

/-- The class DataBaseInfo, opaque for iserver.cpp. -/
structure DataBaseInfo where
  name : String
deriving DecidableEq, Repr

/-- The type PropertyType (a key and a value), opaque for iserver.cpp. -/
abbrev PropertyType := String × String

namespace EventsInfo

/-! Value types carried by signals and events. Their declarations
(core/events/events_info.h) are outside src: a request keeps the constructor
arguments iserver.cpp passes, a response keeps what errorInfo() returns and
an opaque body. -/

structure ConnectInfoRequest where
deriving DecidableEq, Repr

structure ShutDownInfoRequest where
deriving DecidableEq, Repr

structure BackupInfoRequest where
  path : String
deriving DecidableEq, Repr

structure ExportInfoRequest where
  path : String
deriving DecidableEq, Repr

structure LoadDatabasesInfoRequest where
deriving DecidableEq, Repr

structure LoadDatabasesContentRequest where
  inf : DataBaseInfo
deriving DecidableEq, Repr

structure DisonnectInfoRequest where
deriving DecidableEq, Repr

structure ExecuteInfoRequest where
  text : String
deriving DecidableEq, Repr

structure ServerInfoRequest where
deriving DecidableEq, Repr

structure ServerPropertyInfoRequest where
deriving DecidableEq, Repr

structure ChangeServerPropertyInfoRequest where
  newItem_ : PropertyType := ("", "")
deriving DecidableEq, Repr

structure ServerInfoHistoryRequest where
deriving DecidableEq, Repr

structure ProcessConfigArgsInfoRequest where
deriving DecidableEq, Repr

/-- Common shape of every response value: the error pointer and the rest. -/
structure ResponceInfo where
  errorInfo : ErrorValueSPtr
  body : String
deriving DecidableEq, Repr

abbrev ConnectInfoResponce := ResponceInfo
abbrev DisConnectInfoResponce := ResponceInfo
abbrev ExecuteInfoResponce := ResponceInfo
abbrev LoadDatabasesInfoResponce := ResponceInfo
abbrev LoadDatabaseContentResponce := ResponceInfo
abbrev ServerInfoResponce := ResponceInfo
abbrev ServerInfoHistoryResponce := ResponceInfo
abbrev ServerPropertyInfoResponce := ResponceInfo
abbrev ChangeServerPropertyInfoResponce := ResponceInfo
abbrev BackupInfoResponce := ResponceInfo
abbrev ExportInfoResponce := ResponceInfo
abbrev EnterModeInfo := ResponceInfo
abbrev LeaveModeInfo := ResponceInfo
abbrev CommandRootCreatedInfo := ResponceInfo
abbrev CommandRootCompleatedInfo := ResponceInfo

end EventsInfo

open EventsInfo

/-- The signals of IServer (and of IDriver for addedChild and itemUpdated)
that iserver.cpp names, plus the finished signals of the handlers that are
implemented outside src. -/
inductive Signal
  | startedConnect | finishedConnect
  | startedDisconnect | finishedDisconnect
  | startedExecute | finishedExecute
  | rootCreated | rootCompleated
  | addedChild | itemUpdated
  | startedShutdown
  | startedBackup | finishedBackup
  | startedExport | finishedExport
  | startedLoadDatabases | finishedLoadDatabases
  | startedLoadDataBaseContent | finishedLoadDatabaseContent
  | startedLoadServerInfo | finishedLoadServerInfo
  | startedLoadServerProperty | finishedLoadServerProperty
  | startedChangeServerProperty | finishedChangeServerProperty
  | startedLoadServerHistoryInfo | finishedLoadServerHistoryInfo
  | enteredMode | leavedMode
  | progressChanged
deriving DecidableEq, Repr

/-- The argument list of one signal emission. -/
inductive Args
  | ConnectInfoRequest (r : ConnectInfoRequest)
  | ShutDownInfoRequest (r : ShutDownInfoRequest)
  | BackupInfoRequest (r : BackupInfoRequest)
  | ExportInfoRequest (r : ExportInfoRequest)
  | LoadDatabasesInfoRequest (r : LoadDatabasesInfoRequest)
  | LoadDatabasesContentRequest (r : LoadDatabasesContentRequest)
  | DisonnectInfoRequest (r : DisonnectInfoRequest)
  | ExecuteInfoRequest (r : ExecuteInfoRequest)
  | ServerInfoRequest (r : ServerInfoRequest)
  | ServerPropertyInfoRequest (r : ServerPropertyInfoRequest)
  | ChangeServerPropertyInfoRequest (r : ChangeServerPropertyInfoRequest)
  | ServerInfoHistoryRequest (r : ServerInfoHistoryRequest)
  | responce (r : ResponceInfo)
  | progress (v : Nat)
  | object (o : FastoObject)
  | objectText (o : FastoObject) (s : String)
deriving DecidableEq, Repr

/-- One emission as seen by the emitting object: which signal, which arguments. -/
structure Notification where
  signal : Signal
  args : Args
deriving DecidableEq, Repr

/-- The QEvent subclasses of namespace Events, each with its sender and value.
Modelled from the spec: core/events/events.h is outside src; the constructors
are the classes iserver.cpp names, the execute-result class of the event kind
enumeration, and other for a QEvent of any type the router does not know. -/
inductive Event
  | ConnectRequestEvent (sender : QObjectId) (v : ConnectInfoRequest)
  | ConnectResponceEvent (sender : QObjectId) (v : ConnectInfoResponce)
  | ShutDownRequestEvent (sender : QObjectId) (v : ShutDownInfoRequest)
  | BackupRequestEvent (sender : QObjectId) (v : BackupInfoRequest)
  | BackupResponceEvent (sender : QObjectId) (v : BackupInfoResponce)
  | ExportRequestEvent (sender : QObjectId) (v : ExportInfoRequest)
  | ExportResponceEvent (sender : QObjectId) (v : ExportInfoResponce)
  | LoadDatabasesInfoRequestEvent (sender : QObjectId) (v : LoadDatabasesInfoRequest)
  | LoadDatabasesInfoResponceEvent (sender : QObjectId) (v : LoadDatabasesInfoResponce)
  | LoadDatabaseContentRequestEvent (sender : QObjectId) (v : LoadDatabasesContentRequest)
  | LoadDatabaseContentResponceEvent (sender : QObjectId) (v : LoadDatabaseContentResponce)
  | DisconnectRequestEvent (sender : QObjectId) (v : DisonnectInfoRequest)
  | DisconnectResponceEvent (sender : QObjectId) (v : DisConnectInfoResponce)
  | ExecuteRequestEvent (sender : QObjectId) (v : ExecuteInfoRequest)
  | ExecuteResponceEvent (sender : QObjectId) (v : ExecuteInfoResponce)
  | ServerInfoRequestEvent (sender : QObjectId) (v : ServerInfoRequest)
  | ServerInfoResponceEvent (sender : QObjectId) (v : ServerInfoResponce)
  | ServerPropertyInfoRequestEvent (sender : QObjectId) (v : ServerPropertyInfoRequest)
  | ServerPropertyInfoResponceEvent (sender : QObjectId) (v : ServerPropertyInfoResponce)
  | ChangeServerPropertyInfoRequestEvent (sender : QObjectId)
      (v : ChangeServerPropertyInfoRequest)
  | ChangeServerPropertyInfoResponceEvent (sender : QObjectId)
      (v : ChangeServerPropertyInfoResponce)
  | ServerInfoHistoryRequestEvent (sender : QObjectId) (v : ServerInfoHistoryRequest)
  | ServerInfoHistoryResponceEvent (sender : QObjectId) (v : ServerInfoHistoryResponce)
  | ProcessConfigArgsRequestEvent (sender : QObjectId) (v : ProcessConfigArgsInfoRequest)
  | EnterModeEvent (sender : QObjectId) (v : EnterModeInfo)
  | LeaveModeEvent (sender : QObjectId) (v : LeaveModeInfo)
  | CommandRootCreatedEvent (sender : QObjectId) (v : CommandRootCreatedInfo)
  | CommandRootCompleatedEvent (sender : QObjectId) (v : CommandRootCompleatedInfo)
  | ProgressResponceEvent (sender : QObjectId) (v : Nat)
  | other (type : Nat)
deriving DecidableEq, Repr

/-- What a method body does that an observer can see, in program order. -/
inductive Effect
  | emit (n : Notification)
  | postEvent (receiver : QObjectId) (ev : Event)
  | logError (er : ErrorValue)
  | baseCustomEvent (ev : Event)
deriving DecidableEq, Repr

/-- The data members of IServer, with self standing for the this pointer. -/
structure IServer where
  self : QObjectId
  drv_ : QObjectId
  isMaster_ : Bool
deriving DecidableEq, Repr

namespace IServer

/-- IServer::notify: emit progressChanged(0), then post the event to the driver. -/
def notify (s : IServer) (ev : Event) : List Effect :=
  [Effect.emit ⟨Signal.progressChanged, Args.progress 0⟩, Effect.postEvent s.drv_ ev]

/-- IServer::connect. -/
def connect (s : IServer) : List Effect :=
  let req : ConnectInfoRequest := {}
  Effect.emit ⟨Signal.startedConnect, Args.ConnectInfoRequest req⟩ ::
    s.notify (Event.ConnectRequestEvent s.self req)

/-- IServer::shutDown. -/
def shutDown (s : IServer) : List Effect :=
  let req : ShutDownInfoRequest := {}
  Effect.emit ⟨Signal.startedShutdown, Args.ShutDownInfoRequest req⟩ ::
    s.notify (Event.ShutDownRequestEvent s.self req)

/-- IServer::backupToPath. -/
def backupToPath (s : IServer) (path : String) : List Effect :=
  let req : BackupInfoRequest := ⟨convertToString path⟩
  Effect.emit ⟨Signal.startedBackup, Args.BackupInfoRequest req⟩ ::
    s.notify (Event.BackupRequestEvent s.self req)

/-- IServer::exportFromPath. -/
def exportFromPath (s : IServer) (path : String) : List Effect :=
  let req : ExportInfoRequest := ⟨convertToString path⟩
  Effect.emit ⟨Signal.startedExport, Args.ExportInfoRequest req⟩ ::
    s.notify (Event.ExportRequestEvent s.self req)

/-- IServer::loadDatabases. -/
def loadDatabases (s : IServer) : List Effect :=
  let req : LoadDatabasesInfoRequest := {}
  Effect.emit ⟨Signal.startedLoadDatabases, Args.LoadDatabasesInfoRequest req⟩ ::
    s.notify (Event.LoadDatabasesInfoRequestEvent s.self req)

/-- IServer::loadDatabaseContent. -/
def loadDatabaseContent (s : IServer) (inf : DataBaseInfo) : List Effect :=
  let req : LoadDatabasesContentRequest := ⟨inf⟩
  Effect.emit ⟨Signal.startedLoadDataBaseContent, Args.LoadDatabasesContentRequest req⟩ ::
    s.notify (Event.LoadDatabaseContentRequestEvent s.self req)

/-- IServer::disconnect. -/
def disconnect (s : IServer) : List Effect :=
  let req : DisonnectInfoRequest := {}
  Effect.emit ⟨Signal.startedDisconnect, Args.DisonnectInfoRequest req⟩ ::
    s.notify (Event.DisconnectRequestEvent s.self req)

/-- IServer::execute. -/
def execute (s : IServer) (script : String) : List Effect :=
  let req : ExecuteInfoRequest := ⟨convertToString script⟩
  Effect.emit ⟨Signal.startedExecute, Args.ExecuteInfoRequest req⟩ ::
    s.notify (Event.ExecuteRequestEvent s.self req)

/-- IServer::serverInfo. -/
def serverInfo (s : IServer) : List Effect :=
  let req : ServerInfoRequest := {}
  Effect.emit ⟨Signal.startedLoadServerInfo, Args.ServerInfoRequest req⟩ ::
    s.notify (Event.ServerInfoRequestEvent s.self req)

/-- IServer::serverProperty. -/
def serverProperty (s : IServer) : List Effect :=
  let req : ServerPropertyInfoRequest := {}
  Effect.emit ⟨Signal.startedLoadServerProperty, Args.ServerPropertyInfoRequest req⟩ ::
    s.notify (Event.ServerPropertyInfoRequestEvent s.self req)

/-- IServer::changeProperty. -/
def changeProperty (s : IServer) (newValue : PropertyType) : List Effect :=
  let req0 : ChangeServerPropertyInfoRequest := {}
  let req : ChangeServerPropertyInfoRequest := { req0 with newItem_ := newValue }
  Effect.emit ⟨Signal.startedChangeServerProperty, Args.ChangeServerPropertyInfoRequest req⟩ ::
    s.notify (Event.ChangeServerPropertyInfoRequestEvent s.self req)

/-- IServer::requestHistoryInfo. -/
def requestHistoryInfo (s : IServer) : List Effect :=
  let req : ServerInfoHistoryRequest := {}
  Effect.emit ⟨Signal.startedLoadServerHistoryInfo, Args.ServerInfoHistoryRequest req⟩ ::
    s.notify (Event.ServerInfoHistoryRequestEvent s.self req)

/-- IServer::loadServerInfoHistoryEvent, applied to the value of the event. -/
def loadServerInfoHistoryEvent (_s : IServer) (v : ServerInfoHistoryResponce) : List Effect :=
  let er : ErrorValueSPtr := v.errorInfo
  (match er with
    | some e => if e.isError then [Effect.logError e] else []
    | none => []) ++
  [Effect.emit ⟨Signal.finishedLoadServerHistoryInfo, Args.responce v⟩]

/-- IServer::processConfigArgs. -/
def processConfigArgs (s : IServer) : List Effect :=
  let req : ProcessConfigArgsInfoRequest := {}
  s.notify (Event.ProcessConfigArgsRequestEvent s.self req)

end IServer

/-- The handlers customEvent calls that IServer declares and its subclasses
implement outside src (connectEvent, disconnectEvent, ...): one function per
handler, from the server and the value of the event to the effects. -/
structure Handlers where
  connectEvent : IServer → ConnectInfoResponce → List Effect
  disconnectEvent : IServer → DisConnectInfoResponce → List Effect
  loadDatabaseInfosEvent : IServer → LoadDatabasesInfoResponce → List Effect
  loadDatabaseContentEvent : IServer → LoadDatabaseContentResponce → List Effect
  loadServerInfoEvent : IServer → ServerInfoResponce → List Effect
  loadServerPropertyEvent : IServer → ServerPropertyInfoResponce → List Effect
  serverPropertyChangeEvent : IServer → ChangeServerPropertyInfoResponce → List Effect
  handleBackupEvent : IServer → BackupInfoResponce → List Effect
  handleExportEvent : IServer → ExportInfoResponce → List Effect

/-- Modelled from the spec: the body shared by the handlers implemented outside
src, the uniform pattern of the event router section: log the ErrorValue when
it is present with isError set, then emit the finished signal with the whole
response. It is the body of loadServerInfoHistoryEvent with another signal. -/
def uniformHandler (finished : Signal) (v : ResponceInfo) : List Effect :=
  (match v.errorInfo with
    | some e => if e.isError then [Effect.logError e] else []
    | none => []) ++
  [Effect.emit ⟨finished, Args.responce v⟩]

/-- Modelled from the spec: every handler implemented outside src follows the
uniform pattern with the finished signal of its kind. -/
def uniformHandlers : Handlers where
  connectEvent := fun _ v => uniformHandler Signal.finishedConnect v
  disconnectEvent := fun _ v => uniformHandler Signal.finishedDisconnect v
  loadDatabaseInfosEvent := fun _ v => uniformHandler Signal.finishedLoadDatabases v
  loadDatabaseContentEvent := fun _ v => uniformHandler Signal.finishedLoadDatabaseContent v
  loadServerInfoEvent := fun _ v => uniformHandler Signal.finishedLoadServerInfo v
  loadServerPropertyEvent := fun _ v => uniformHandler Signal.finishedLoadServerProperty v
  serverPropertyChangeEvent := fun _ v => uniformHandler Signal.finishedChangeServerProperty v
  handleBackupEvent := fun _ v => uniformHandler Signal.finishedBackup v
  handleExportEvent := fun _ v => uniformHandler Signal.finishedExport v

/-- IServer::customEvent. The chain of comparisons of event->type() with the
EventType of each class, followed by the static_cast, is the match on the
class of the event; the last statement hands the event to QObject::customEvent
whatever branch ran. -/
def IServer.customEvent (h : Handlers) (s : IServer) (event : Event) : List Effect :=
  (match event with
    | Event.ConnectResponceEvent _ v =>
        h.connectEvent s v ++
          (let er : ErrorValueSPtr := v.errorInfo
           if er.isNone then s.processConfigArgs else [])
    | Event.EnterModeEvent _ v => [Effect.emit ⟨Signal.enteredMode, Args.responce v⟩]
    | Event.LeaveModeEvent _ v => [Effect.emit ⟨Signal.leavedMode, Args.responce v⟩]
    | Event.CommandRootCreatedEvent _ v => [Effect.emit ⟨Signal.rootCreated, Args.responce v⟩]
    | Event.CommandRootCompleatedEvent _ v =>
        [Effect.emit ⟨Signal.rootCompleated, Args.responce v⟩]
    | Event.DisconnectResponceEvent _ v => h.disconnectEvent s v
    | Event.LoadDatabasesInfoResponceEvent _ v => h.loadDatabaseInfosEvent s v
    | Event.LoadDatabaseContentResponceEvent _ v => h.loadDatabaseContentEvent s v
    | Event.ServerInfoResponceEvent _ v => h.loadServerInfoEvent s v
    | Event.ServerInfoHistoryResponceEvent _ v => s.loadServerInfoHistoryEvent v
    | Event.ServerPropertyInfoResponceEvent _ v => h.loadServerPropertyEvent s v
    | Event.ChangeServerPropertyInfoResponceEvent _ v => h.serverPropertyChangeEvent s v
    | Event.BackupResponceEvent _ v => h.handleBackupEvent s v
    | Event.ExportResponceEvent _ v => h.handleExportEvent s v
    | Event.ProgressResponceEvent _ v =>
        [Effect.emit ⟨Signal.progressChanged, Args.progress v⟩]
    | _ => []) ++
  [Effect.baseCustomEvent event]

/-! ## The connection table -/

/-- The two values of Qt::ConnectionType iserver.cpp uses: the default of
QObject::connect and Qt::UniqueConnection. -/
inductive ConnectionType
  | AutoConnection
  | UniqueConnection
deriving DecidableEq, Repr

/-- One signal to signal connection held by Qt. -/
structure Connection where
  sender : QObjectId
  signal : Signal
  receiver : QObjectId
  member : Signal
deriving DecidableEq, Repr

/-- All connections, oldest first. -/
abbrev ConnectionTable := List Connection

/-- QObject::connect(sender, signal, receiver, member, type). With
Qt::UniqueConnection the call fails and changes nothing when the same
connection exists; otherwise the connection is appended. The result is the
success flag and the new table. -/
def QObject.connect (sender : QObjectId) (signal : Signal) (receiver : QObjectId)
    (member : Signal) (type : ConnectionType) (t : ConnectionTable) : Bool × ConnectionTable :=
  let c : Connection := ⟨sender, signal, receiver, member⟩
  match type with
  | ConnectionType.UniqueConnection => if c ∈ t then (false, t) else (true, t ++ [c])
  | ConnectionType.AutoConnection => (true, t ++ [c])

/-- QObject::disconnect(sender, signal, receiver, member): removes every
connection equal to the four arguments; true when there was one. -/
def QObject.disconnect (sender : QObjectId) (signal : Signal) (receiver : QObjectId)
    (member : Signal) (t : ConnectionTable) : Bool × ConnectionTable :=
  let c : Connection := ⟨sender, signal, receiver, member⟩
  (decide (c ∈ t), t.filter (fun d => decide (d ≠ c)))

/-- The struct connectFunct of the anonymous namespace. -/
structure connectFunct where
  isConnect_ : Bool
deriving DecidableEq, Repr

/-- Call operator of connectFunct. -/
def connectFunct.call (f : connectFunct) (sender : QObjectId) (signal : Signal)
    (receiver : QObjectId) (member : Signal) (type : ConnectionType) (t : ConnectionTable) :
    Bool × ConnectionTable :=
  if f.isConnect_ then QObject.connect sender signal receiver member type t
  else QObject.disconnect sender signal receiver member t

/-- The function syncServersFunct. The macro VERIFY is defined outside src; here
its argument is evaluated, execution continues, and the first component of the
result tells whether every VERIFY argument was true. -/
def syncServersFunct (src dsc : QObjectId) (func : connectFunct) (t : ConnectionTable) :
    Bool × ConnectionTable :=
  let r1 := func.call src Signal.startedConnect dsc Signal.startedConnect
    ConnectionType.UniqueConnection t
  let r2 := func.call src Signal.finishedConnect dsc Signal.finishedConnect
    ConnectionType.UniqueConnection r1.2
  let r3 := func.call src Signal.startedDisconnect dsc Signal.startedDisconnect
    ConnectionType.UniqueConnection r2.2
  let r4 := func.call src Signal.finishedDisconnect dsc Signal.finishedDisconnect
    ConnectionType.UniqueConnection r3.2
  let r5 := func.call src Signal.startedExecute dsc Signal.startedExecute
    ConnectionType.UniqueConnection r4.2
  let r6 := func.call src Signal.finishedExecute dsc Signal.finishedExecute
    ConnectionType.UniqueConnection r5.2
  let r7 := func.call src Signal.rootCreated dsc Signal.rootCreated
    ConnectionType.UniqueConnection r6.2
  let r8 := func.call src Signal.rootCompleated dsc Signal.rootCompleated
    ConnectionType.UniqueConnection r7.2
  let r9 := func.call src Signal.addedChild dsc Signal.addedChild
    ConnectionType.UniqueConnection r8.2
  let r10 := func.call src Signal.itemUpdated dsc Signal.itemUpdated
    ConnectionType.UniqueConnection r9.2
  (r1.1 && r2.1 && r3.1 && r4.1 && r5.1 && r6.1 && r7.1 && r8.1 && r9.1 && r10.1, r10.2)

/-- IServer::unSyncServers. -/
def IServer.unSyncServers (src dsc : QObjectId) (t : ConnectionTable) : Bool × ConnectionTable :=
  let f : connectFunct := ⟨false⟩
  let r1 := syncServersFunct src dsc f t
  let r2 := syncServersFunct dsc src f r1.2
  (r1.1 && r2.1, r2.2)

/-- IServer::syncServers. -/
def IServer.syncServers (src dsc : QObjectId) (t : ConnectionTable) : Bool × ConnectionTable :=
  let f : connectFunct := ⟨true⟩
  let r1 := syncServersFunct src dsc f t
  let r2 := syncServersFunct dsc src f r1.2
  (r1.1 && r2.1, r2.2)

/-- Result of running the constructor: the object, whether every VERIFY
argument was true, and the connection table afterwards. -/
structure Constructed where
  server : IServer
  verified : Bool
  table : ConnectionTable
deriving DecidableEq, Repr

/-- The constructor IServer::IServer(drv, isMaster) run for the object self
(the name IServer.IServer would shadow the type). -/
def IServer.ctor (self : QObjectId) (drv : QObjectId) (isMaster : Bool)
    (t : ConnectionTable) : Constructed :=
  let s : IServer := { self := self, drv_ := drv, isMaster_ := isMaster }
  if s.isMaster_ then
    let r1 := QObject.connect s.drv_ Signal.addedChild s.self Signal.addedChild
      ConnectionType.AutoConnection t
    let r2 := QObject.connect s.drv_ Signal.itemUpdated s.self Signal.itemUpdated
      ConnectionType.AutoConnection r1.2
    { server := s, verified := r1.1 && r2.1, table := r2.2 }
  else
    { server := s, verified := true, table := t }

/-! ## Signal delivery -/

/-- One signal emitted by one object. -/
structure Emission where
  object : QObjectId
  n : Notification
deriving DecidableEq, Repr

/-- Runs the deliveries of the connections of one emission one after the
other, as the loop over the connection list in Qt does: the delivery of a
connection starts only when the delivery of the one before has returned. The
flag of the result is false when a delivery did not return; the deliveries
after it are then not run. -/
def deliverAll (g : Connection → List Emission × Bool) : List Connection → List Emission × Bool
  | [] => ([], true)
  | c :: cs =>
    let r := g c
    if r.2 then
      let r1 := deliverAll g cs
      (r.1 ++ r1.1, r1.2)
    else (r.1, false)

/-- Delivery of an emitted signal over the connection table, as Qt does for
signal to signal connections in one thread (direct, depth first): the emission
itself, then, for every connection of that sender and signal in connection
order, the whole delivery of the member signal emitted by the receiver with
the same arguments. The first argument bounds the nesting depth. The flag of
the result tells whether the delivery returned within that depth; when it is
false the list holds the emissions made before the bound was reached, in
order, and nothing that the real delivery would make later. -/
def QMetaObject.activate :
    Nat → ConnectionTable → QObjectId → Notification → List Emission × Bool
  | 0, _, _, _ => ([], false)
  | fuel + 1, t, o, n =>
    let r := deliverAll
      (fun c => QMetaObject.activate fuel t c.receiver ⟨c.member, n.args⟩)
      (t.filter (fun c => decide (c.sender = o ∧ c.signal = n.signal)))
    (⟨o, n⟩ :: r.1, r.2)

/-- Everything emitted, by any object, while the server s runs a method body
with the given effects: each emit of the body is delivered over the table
before the body goes on. The flag is false when a delivery did not return
within the depth; the rest of the body is then not run. -/
def IServer.emissions (fuel : Nat) (t : ConnectionTable) (s : IServer) :
    List Effect → List Emission × Bool
  | [] => ([], true)
  | Effect.emit n :: rest =>
    let r := QMetaObject.activate fuel t s.self n
    if r.2 then
      let r1 := IServer.emissions fuel t s rest
      (r.1 ++ r1.1, r1.2)
    else (r.1, false)
  | _ :: rest => IServer.emissions fuel t s rest

/-! ## Observations on effect lists -/

/-- The signals a body emits, in order. -/
def notifications : List Effect → List Notification
  | [] => []
  | Effect.emit n :: rest => n :: notifications rest
  | _ :: rest => notifications rest

/-- The events a body posts, with their receivers, in order. -/
def posts : List Effect → List (QObjectId × Event)
  | [] => []
  | Effect.postEvent r ev :: rest => (r, ev) :: posts rest
  | _ :: rest => posts rest

/-- The errors a body logs, in order. -/
def logged : List Effect → List ErrorValue
  | [] => []
  | Effect.logError e :: rest => e :: logged rest
  | _ :: rest => logged rest

/-! ## The dispatcher methods as one family -/

/-- A call of one of the twelve dispatcher methods that announce themselves
with a started signal, with its arguments. -/
inductive DispatcherCall
  | connect
  | disconnect
  | execute (script : String)
  | shutDown
  | backupToPath (path : String)
  | exportFromPath (path : String)
  | loadDatabases
  | loadDatabaseContent (inf : DataBaseInfo)
  | serverInfo
  | serverProperty
  | changeProperty (newValue : PropertyType)
  | requestHistoryInfo
deriving DecidableEq, Repr

/-- Runs the method a call names on the server s. -/
def DispatcherCall.run (s : IServer) : DispatcherCall → List Effect
  | DispatcherCall.connect => s.connect
  | DispatcherCall.disconnect => s.disconnect
  | DispatcherCall.execute script => s.execute script
  | DispatcherCall.shutDown => s.shutDown
  | DispatcherCall.backupToPath path => s.backupToPath path
  | DispatcherCall.exportFromPath path => s.exportFromPath path
  | DispatcherCall.loadDatabases => s.loadDatabases
  | DispatcherCall.loadDatabaseContent inf => s.loadDatabaseContent inf
  | DispatcherCall.serverInfo => s.serverInfo
  | DispatcherCall.serverProperty => s.serverProperty
  | DispatcherCall.changeProperty newValue => s.changeProperty newValue
  | DispatcherCall.requestHistoryInfo => s.requestHistoryInfo

/-- Specification side: the started signal paired with each dispatcher method. -/
def DispatcherCall.startedSignal : DispatcherCall → Signal
  | DispatcherCall.connect => Signal.startedConnect
  | DispatcherCall.disconnect => Signal.startedDisconnect
  | DispatcherCall.execute _ => Signal.startedExecute
  | DispatcherCall.shutDown => Signal.startedShutdown
  | DispatcherCall.backupToPath _ => Signal.startedBackup
  | DispatcherCall.exportFromPath _ => Signal.startedExport
  | DispatcherCall.loadDatabases => Signal.startedLoadDatabases
  | DispatcherCall.loadDatabaseContent _ => Signal.startedLoadDataBaseContent
  | DispatcherCall.serverInfo => Signal.startedLoadServerInfo
  | DispatcherCall.serverProperty => Signal.startedLoadServerProperty
  | DispatcherCall.changeProperty _ => Signal.startedChangeServerProperty
  | DispatcherCall.requestHistoryInfo => Signal.startedLoadServerHistoryInfo

/-- Specification side: the Request value built from the arguments of a call. -/
def DispatcherCall.request : DispatcherCall → Args
  | DispatcherCall.connect => Args.ConnectInfoRequest {}
  | DispatcherCall.disconnect => Args.DisonnectInfoRequest {}
  | DispatcherCall.execute script => Args.ExecuteInfoRequest ⟨script⟩
  | DispatcherCall.shutDown => Args.ShutDownInfoRequest {}
  | DispatcherCall.backupToPath path => Args.BackupInfoRequest ⟨path⟩
  | DispatcherCall.exportFromPath path => Args.ExportInfoRequest ⟨path⟩
  | DispatcherCall.loadDatabases => Args.LoadDatabasesInfoRequest {}
  | DispatcherCall.loadDatabaseContent inf => Args.LoadDatabasesContentRequest ⟨inf⟩
  | DispatcherCall.serverInfo => Args.ServerInfoRequest {}
  | DispatcherCall.serverProperty => Args.ServerPropertyInfoRequest {}
  | DispatcherCall.changeProperty newValue => Args.ChangeServerPropertyInfoRequest ⟨newValue⟩
  | DispatcherCall.requestHistoryInfo => Args.ServerInfoHistoryRequest {}

/-- Specification side: a signal is one of the started signals. -/
def Signal.isStarted : Signal → Bool
  | Signal.startedConnect | Signal.startedDisconnect | Signal.startedExecute
  | Signal.startedShutdown | Signal.startedBackup | Signal.startedExport
  | Signal.startedLoadDatabases | Signal.startedLoadDataBaseContent
  | Signal.startedLoadServerInfo | Signal.startedLoadServerProperty
  | Signal.startedChangeServerProperty | Signal.startedLoadServerHistoryInfo => true
  | _ => false

/-- Specification side: the started signal whose request a Request event of
this class answers to, with the value of the event; none for every other
event. -/
def Event.asRequest : Event → Option (Signal × QObjectId × Args)
  | Event.ConnectRequestEvent o v => some (Signal.startedConnect, o, Args.ConnectInfoRequest v)
  | Event.DisconnectRequestEvent o v =>
    some (Signal.startedDisconnect, o, Args.DisonnectInfoRequest v)
  | Event.ExecuteRequestEvent o v => some (Signal.startedExecute, o, Args.ExecuteInfoRequest v)
  | Event.ShutDownRequestEvent o v =>
    some (Signal.startedShutdown, o, Args.ShutDownInfoRequest v)
  | Event.BackupRequestEvent o v => some (Signal.startedBackup, o, Args.BackupInfoRequest v)
  | Event.ExportRequestEvent o v => some (Signal.startedExport, o, Args.ExportInfoRequest v)
  | Event.LoadDatabasesInfoRequestEvent o v =>
    some (Signal.startedLoadDatabases, o, Args.LoadDatabasesInfoRequest v)
  | Event.LoadDatabaseContentRequestEvent o v =>
    some (Signal.startedLoadDataBaseContent, o, Args.LoadDatabasesContentRequest v)
  | Event.ServerInfoRequestEvent o v =>
    some (Signal.startedLoadServerInfo, o, Args.ServerInfoRequest v)
  | Event.ServerPropertyInfoRequestEvent o v =>
    some (Signal.startedLoadServerProperty, o, Args.ServerPropertyInfoRequest v)
  | Event.ChangeServerPropertyInfoRequestEvent o v =>
    some (Signal.startedChangeServerProperty, o, Args.ChangeServerPropertyInfoRequest v)
  | Event.ServerInfoHistoryRequestEvent o v =>
    some (Signal.startedLoadServerHistoryInfo, o, Args.ServerInfoHistoryRequest v)
  | _ => none

/-- The notifications of a body that are started signals. -/
def startedNotifications (l : List Effect) : List Notification :=
  (notifications l).filter (fun n => n.signal.isStarted)

/-! ## The mirrored signals -/

/-- Specification side: the ten signals the synchronisation mirrors, in the
order syncServersFunct treats them. -/
def mirroredSignals : List Signal :=
  [Signal.startedConnect, Signal.finishedConnect, Signal.startedDisconnect,
   Signal.finishedDisconnect, Signal.startedExecute, Signal.finishedExecute,
   Signal.rootCreated, Signal.rootCompleated, Signal.addedChild, Signal.itemUpdated]

/-- The ten forwardings from a to b, one per mirrored signal. -/
def forwardings (a b : QObjectId) : List Connection :=
  mirroredSignals.map (fun k => ⟨a, k, b, k⟩)

/-- The twenty forwardings between a and b, both directions. -/
def bridge (a b : QObjectId) : List Connection :=
  forwardings a b ++ forwardings b a

/-- Appends a connection unless the table holds it already. -/
def uniqueAdd (t : ConnectionTable) (c : Connection) : ConnectionTable :=
  if c ∈ t then t else t ++ [c]

/-- Removes every copy of a connection. -/
def removeAll (t : ConnectionTable) (c : Connection) : ConnectionTable :=
  t.filter (fun d => decide (d ≠ c))

/-! # Theorems -/

/-! ## The event router -/

/-- C1 (as stated, refuted): an execute-result event with payload PONG reaches
the router of a server with the uniform handlers, and finishedExecute with
that payload is not emitted exactly once. -/
theorem C1_counterexample :
    ¬ ((notifications (IServer.customEvent uniformHandlers ⟨1, 2, true⟩
        (Event.ExecuteResponceEvent 2 ⟨none, "PONG"⟩))).count
          ⟨Signal.finishedExecute, Args.responce ⟨none, "PONG"⟩⟩ = 1) := by
  decide

/-- C1 (amended): customEvent has no branch for the execute-result class. For
every handler table, server, sender and payload the router only hands the
event to the base class: it emits no signal, posts no event, logs nothing. -/
theorem C1_execute_result_unhandled (h : Handlers) (s : IServer) (sender : QObjectId)
    (v : ExecuteInfoResponce) :
    IServer.customEvent h s (Event.ExecuteResponceEvent sender v)
        = [Effect.baseCustomEvent (Event.ExecuteResponceEvent sender v)]
      ∧ notifications (IServer.customEvent h s (Event.ExecuteResponceEvent sender v)) = []
      ∧ posts (IServer.customEvent h s (Event.ExecuteResponceEvent sender v)) = []
      ∧ logged (IServer.customEvent h s (Event.ExecuteResponceEvent sender v)) = [] := by
  refine ⟨rfl, rfl, rfl, rfl⟩

/-- C3 (as stated, refuted): a connect-result whose ErrorValue is present with
isError false is successful in the sense of the claim, yet the router does not
post exactly one event. -/
theorem C3_counterexample :
    ¬ ((posts (IServer.customEvent uniformHandlers ⟨1, 2, true⟩
        (Event.ConnectResponceEvent 2 ⟨some ⟨"", false⟩, ""⟩))).length = 1) := by
  decide

/-- C3 (amended): on a connect-result the router runs the connect handler and
then, exactly when the response carries no ErrorValue at all (the pointer is
null), processConfigArgs: progressChanged(0) and one process-config-args
request posted to the driver, no started signal. When an ErrorValue is
present, with isError set or not, the router adds nothing. With the uniform
handlers the posts of the whole dispatch are that one request or none. -/
theorem C3_connect_result_follow_up (h : Handlers) (s : IServer) (sender : QObjectId)
    (v : ConnectInfoResponce) :
    IServer.customEvent h s (Event.ConnectResponceEvent sender v)
        = h.connectEvent s v
          ++ (if v.errorInfo = none then
                [Effect.emit ⟨Signal.progressChanged, Args.progress 0⟩,
                 Effect.postEvent s.drv_ (Event.ProcessConfigArgsRequestEvent s.self {})]
              else [])
          ++ [Effect.baseCustomEvent (Event.ConnectResponceEvent sender v)]
      ∧ posts (IServer.customEvent uniformHandlers s (Event.ConnectResponceEvent sender v))
        = (if v.errorInfo = none then
            [(s.drv_, Event.ProcessConfigArgsRequestEvent s.self {})] else [])
      ∧ startedNotifications
          (IServer.customEvent uniformHandlers s (Event.ConnectResponceEvent sender v)) = [] := by
  obtain ⟨er, body⟩ := v
  cases er with
  | none =>
    simp [IServer.customEvent, IServer.processConfigArgs, IServer.notify, uniformHandlers,
      uniformHandler, posts, notifications, startedNotifications, Signal.isStarted]
  | some e =>
    cases hE : e.isError <;>
    simp [IServer.customEvent, IServer.processConfigArgs, IServer.notify, uniformHandlers,
      uniformHandler, posts, notifications, startedNotifications, Signal.isStarted, hE]

/-- C7: for every history-result value, with or without an ErrorValue, the
handler loadServerInfoHistoryEvent (a total function) emits exactly one
signal, finishedLoadServerHistoryInfo with the unchanged value, posts
nothing, and logs an error exactly when the ErrorValue is present with
isError set (then it logs that ErrorValue, once); the router reaches the
handler for every history-result event. -/
theorem C7_history_result (h : Handlers) (s : IServer) (sender : QObjectId)
    (v : ServerInfoHistoryResponce) :
    notifications (s.loadServerInfoHistoryEvent v)
        = [⟨Signal.finishedLoadServerHistoryInfo, Args.responce v⟩]
      ∧ posts (s.loadServerInfoHistoryEvent v) = []
      ∧ logged (s.loadServerInfoHistoryEvent v)
        = (match v.errorInfo with
            | some e => if e.isError then [e] else []
            | none => [])
      ∧ (logged (s.loadServerInfoHistoryEvent v) ≠ []
          ↔ ∃ e, v.errorInfo = some e ∧ e.isError = true)
      ∧ IServer.customEvent h s (Event.ServerInfoHistoryResponceEvent sender v)
        = s.loadServerInfoHistoryEvent v
          ++ [Effect.baseCustomEvent (Event.ServerInfoHistoryResponceEvent sender v)] := by
  obtain ⟨er, body⟩ := v
  cases er with
  | none =>
    simp [IServer.customEvent, IServer.loadServerInfoHistoryEvent, posts, notifications, logged]
  | some e =>
    cases hE : e.isError <;>
    simp [IServer.customEvent, IServer.loadServerInfoHistoryEvent, posts, notifications,
      logged, hE]

/-! ## The dispatcher -/

/-- C2 (as stated, refuted): the signals execute("PING") emits are not
progressChanged(0) followed by startedExecute. -/
theorem C2_counterexample :
    ¬ (notifications (IServer.execute ⟨1, 2, true⟩ "PING")
        = [⟨Signal.progressChanged, Args.progress 0⟩,
           ⟨Signal.startedExecute, Args.ExecuteInfoRequest ⟨"PING"⟩⟩]) := by
  decide

/-- C2 (amended): for every command text, execute emits startedExecute with
the request built from the text first and progressChanged(0) second, and
nothing else; the request event is posted after both. -/
theorem C2_execute_order (s : IServer) (script : String) :
    notifications (s.execute script)
        = [⟨Signal.startedExecute, Args.ExecuteInfoRequest ⟨script⟩⟩,
           ⟨Signal.progressChanged, Args.progress 0⟩]
      ∧ s.execute script
        = [Effect.emit ⟨Signal.startedExecute, Args.ExecuteInfoRequest ⟨script⟩⟩,
           Effect.emit ⟨Signal.progressChanged, Args.progress 0⟩,
           Effect.postEvent s.drv_ (Event.ExecuteRequestEvent s.self ⟨script⟩)] := by
  constructor <;> rfl

/-- C6: every dispatcher method with a started signal, for every argument,
emits its started signal with the request built from the arguments, then
progressChanged(0), then posts one request event of the matching class with
the same request to the driver, and does nothing else: one started signal,
one post, the signal before the post. processConfigArgs posts its request
after progressChanged(0) with no started signal. -/
theorem C6_started_then_posted (s : IServer) (c : DispatcherCall) :
    (∃ ev : Event,
        c.run s = [Effect.emit ⟨c.startedSignal, c.request⟩,
                   Effect.emit ⟨Signal.progressChanged, Args.progress 0⟩,
                   Effect.postEvent s.drv_ ev]
          ∧ ev.asRequest = some (c.startedSignal, s.self, c.request)
          ∧ startedNotifications (c.run s) = [⟨c.startedSignal, c.request⟩]
          ∧ posts (c.run s) = [(s.drv_, ev)]
          ∧ (c.run s).indexOf (Effect.emit ⟨c.startedSignal, c.request⟩)
              < (c.run s).indexOf (Effect.postEvent s.drv_ ev))
      ∧ s.processConfigArgs
          = [Effect.emit ⟨Signal.progressChanged, Args.progress 0⟩,
             Effect.postEvent s.drv_ (Event.ProcessConfigArgsRequestEvent s.self {})]
      ∧ startedNotifications s.processConfigArgs = []
      ∧ posts s.processConfigArgs
          = [(s.drv_, Event.ProcessConfigArgsRequestEvent s.self {})] := by
  refine ⟨?_, rfl, rfl, rfl⟩
  cases c <;>
    exact ⟨_, rfl, rfl, rfl, rfl, by
      simp [DispatcherCall.run, IServer.connect, IServer.disconnect, IServer.execute,
        IServer.shutDown, IServer.backupToPath, IServer.exportFromPath, IServer.loadDatabases,
        IServer.loadDatabaseContent, IServer.serverInfo, IServer.serverProperty,
        IServer.changeProperty, IServer.requestHistoryInfo, IServer.notify,
        DispatcherCall.startedSignal, DispatcherCall.request, convertToString,
        List.indexOf_cons]⟩

/-! ## The connection table: auxiliary facts -/

theorem connect_unique_table (a : QObjectId) (k : Signal) (b : QObjectId) (m : Signal)
    (t : ConnectionTable) :
    (QObject.connect a k b m ConnectionType.UniqueConnection t).2 = uniqueAdd t ⟨a, k, b, m⟩ := by
  unfold QObject.connect uniqueAdd
  by_cases hc : (⟨a, k, b, m⟩ : Connection) ∈ t <;> simp [hc]

theorem disconnect_table (a : QObjectId) (k : Signal) (b : QObjectId) (m : Signal)
    (t : ConnectionTable) :
    (QObject.disconnect a k b m t).2 = removeAll t ⟨a, k, b, m⟩ := rfl

theorem syncServersFunct_connect_table (a b : QObjectId) (t : ConnectionTable) :
    (syncServersFunct a b ⟨true⟩ t).2 = (forwardings a b).foldl uniqueAdd t := by
  simp [syncServersFunct, connectFunct.call, connect_unique_table, forwardings, mirroredSignals]

theorem syncServersFunct_disconnect_table (a b : QObjectId) (t : ConnectionTable) :
    (syncServersFunct a b ⟨false⟩ t).2 = (forwardings a b).foldl removeAll t := by
  simp [syncServersFunct, connectFunct.call, disconnect_table, forwardings, mirroredSignals]

theorem syncServers_table (a b : QObjectId) (t : ConnectionTable) :
    (IServer.syncServers a b t).2 = (bridge a b).foldl uniqueAdd t := by
  simp [IServer.syncServers, syncServersFunct_connect_table, bridge, List.foldl_append]

theorem unSyncServers_table (a b : QObjectId) (t : ConnectionTable) :
    (IServer.unSyncServers a b t).2 = (bridge a b).foldl removeAll t := by
  simp [IServer.unSyncServers, syncServersFunct_disconnect_table, bridge, List.foldl_append]

theorem mem_uniqueAdd (x c : Connection) (t : ConnectionTable) :
    x ∈ uniqueAdd t c ↔ x ∈ t ∨ x = c := by
  unfold uniqueAdd
  by_cases hc : c ∈ t
  · simp only [hc, if_true]
    constructor
    · exact Or.inl
    · rintro (h | h)
      · exact h
      · exact h ▸ hc
  · simp [hc]

theorem mem_foldl_uniqueAdd (x : Connection) (cs : List Connection) (t : ConnectionTable) :
    x ∈ cs.foldl uniqueAdd t ↔ x ∈ t ∨ x ∈ cs := by
  induction cs generalizing t with
  | nil => simp
  | cons c cs ih =>
    simp only [List.foldl_cons, ih, mem_uniqueAdd, List.mem_cons]
    tauto

theorem count_uniqueAdd (x c : Connection) (t : ConnectionTable) :
    (uniqueAdd t c).count x = if x ∈ t then t.count x else if x = c then 1 else 0 := by
  unfold uniqueAdd
  by_cases hc : c ∈ t
  · by_cases hx : x ∈ t
    · simp [hc, hx]
    · have hne : x ≠ c := fun h => hx (h ▸ hc)
      simp [hc, hx, hne, List.count_eq_zero_of_not_mem hx]
  · by_cases hx : x ∈ t
    · have hne : c ≠ x := fun h => hc (h ▸ hx)
      simp [hc, hx, List.count_append, List.count_singleton, hne]
    · by_cases hxc : x = c
      · subst hxc
        simp [hx, List.count_append, List.count_eq_zero_of_not_mem hx]
      · have hne : c ≠ x := fun h => hxc h.symm
        simp [hc, hx, hxc, hne, List.count_append, List.count_singleton,
          List.count_eq_zero_of_not_mem hx]

theorem count_foldl_uniqueAdd (x : Connection) (cs : List Connection) (t : ConnectionTable) :
    (cs.foldl uniqueAdd t).count x = if x ∈ t then t.count x else if x ∈ cs then 1 else 0 := by
  induction cs generalizing t with
  | nil =>
    by_cases hx : x ∈ t
    · simp [hx]
    · simp [hx, List.count_eq_zero_of_not_mem hx]
  | cons c cs ih =>
    rw [List.foldl_cons, ih, count_uniqueAdd]
    by_cases hx : x ∈ t
    · simp [hx, mem_uniqueAdd]
    · by_cases hxc : x = c
      · simp [hx, hxc, mem_uniqueAdd]
      · simp [hx, hxc, mem_uniqueAdd]

theorem foldl_uniqueAdd_of_mem (cs : List Connection) (t : ConnectionTable)
    (h : ∀ c ∈ cs, c ∈ t) : cs.foldl uniqueAdd t = t := by
  induction cs generalizing t with
  | nil => rfl
  | cons c cs ih =>
    have hc : c ∈ t := h c (List.mem_cons_self c cs)
    have hu : uniqueAdd t c = t := by simp [uniqueAdd, hc]
    rw [List.foldl_cons, hu]
    exact ih t (fun d hd => h d (List.mem_cons_of_mem c hd))

theorem foldl_removeAll (cs : List Connection) (t : ConnectionTable) :
    cs.foldl removeAll t = t.filter (fun d => decide (d ∉ cs)) := by
  induction cs generalizing t with
  | nil => simp
  | cons c cs ih =>
    rw [List.foldl_cons, ih, removeAll, List.filter_filter]
    congr 1
    funext d
    by_cases h1 : d = c <;> by_cases h2 : d ∈ cs <;> simp [h1, h2]

theorem filter_foldl_uniqueAdd (p : Connection → Bool) (cs : List Connection)
    (t : ConnectionTable) (h : ∀ c ∈ cs, p c = false) :
    (cs.foldl uniqueAdd t).filter p = t.filter p := by
  induction cs generalizing t with
  | nil => rfl
  | cons c cs ih =>
    rw [List.foldl_cons, ih (uniqueAdd t c) (fun d hd => h d (List.mem_cons_of_mem c hd))]
    have hc : p c = false := h c (List.mem_cons_self c cs)
    unfold uniqueAdd
    by_cases hm : c ∈ t
    · simp [hm]
    · simp [hm, List.filter_append, hc]

theorem unSync_after_sync_table (a b : QObjectId) (t : ConnectionTable) :
    (IServer.unSyncServers a b (IServer.syncServers a b t).2).2
      = t.filter (fun d => decide (d ∉ bridge a b)) := by
  rw [unSyncServers_table, syncServers_table, foldl_removeAll]
  exact filter_foldl_uniqueAdd _ _ _ (fun c hc => by simp [hc])

theorem mem_bridge_comm (a b : QObjectId) (x : Connection) :
    x ∈ bridge a b ↔ x ∈ bridge b a := by
  simp only [bridge, List.mem_append]
  exact or_comm

theorem mem_bridge_left (a b : QObjectId) (k : Signal) (hk : k ∈ mirroredSignals) :
    (⟨a, k, b, k⟩ : Connection) ∈ bridge a b := by
  simp only [bridge, forwardings, List.mem_append, List.mem_map]
  exact Or.inl ⟨k, hk, rfl⟩

theorem mem_bridge_right (a b : QObjectId) (k : Signal) (hk : k ∈ mirroredSignals) :
    (⟨b, k, a, k⟩ : Connection) ∈ bridge a b := by
  simp only [bridge, forwardings, List.mem_append, List.mem_map]
  exact Or.inr ⟨k, hk, rfl⟩

/-! ## Signal delivery: auxiliary facts -/

theorem deliverAll_returns_iff (g : Connection → List Emission × Bool) (l : List Connection) :
    (deliverAll g l).2 = true ↔ ∀ c ∈ l, (g c).2 = true := by
  induction l with
  | nil => simp [deliverAll]
  | cons d l ih =>
    by_cases hd : (g d).2 = true
    · simp [deliverAll, hd, ih]
    · simp [deliverAll, hd]

theorem deliverAll_congr (g g1 : Connection → List Emission × Bool) (l : List Connection)
    (h : ∀ c ∈ l, g c = g1 c) : deliverAll g l = deliverAll g1 l := by
  induction l with
  | nil => rfl
  | cons d l ih =>
    have hd : g d = g1 d := h d (List.mem_cons_self d l)
    have hl : deliverAll g l = deliverAll g1 l :=
      ih (fun c hc => h c (List.mem_cons_of_mem d hc))
    simp only [deliverAll, hd, hl]

theorem deliverAll_reach (g : Connection → List Emission × Bool) (l : List Connection)
    (c : Connection) (hc : c ∈ l) (hret : ∀ d ∈ l, d ≠ c → (g d).2 = true)
    (x : Emission) (hx : x ∈ (g c).1) : x ∈ (deliverAll g l).1 := by
  induction l with
  | nil => cases hc
  | cons d l ih =>
    by_cases hdc : d = c
    · subst hdc
      by_cases hd : (g d).2 = true
      · simp [deliverAll, hd, hx]
      · simp [deliverAll, hd, hx]
    · have hd : (g d).2 = true := hret d (List.mem_cons_self d l) hdc
      have hcl : c ∈ l := by
        rcases List.mem_cons.mp hc with h | h
        · exact absurd h.symm hdc
        · exact h
      have := ih hcl (fun e he => hret e (List.mem_cons_of_mem d he))
      simp [deliverAll, hd, this]

theorem deliverAll_length_of_not_returned (g : Connection → List Emission × Bool)
    (l : List Connection) (h : (deliverAll g l).2 = false) :
    ∃ c ∈ l, (g c).2 = false ∧ (g c).1.length ≤ (deliverAll g l).1.length := by
  induction l with
  | nil => simp [deliverAll] at h
  | cons d l ih =>
    by_cases hd : (g d).2 = true
    · have h1 : (deliverAll g l).2 = false := by simpa [deliverAll, hd] using h
      obtain ⟨c, hc, hc2, hlen⟩ := ih h1
      refine ⟨c, List.mem_cons_of_mem d hc, hc2, ?_⟩
      simp only [deliverAll, hd, if_true, List.length_append]
      omega
    · have hd2 : (g d).2 = false := by simpa using hd
      refine ⟨d, List.mem_cons_self d l, hd2, ?_⟩
      simp [deliverAll, hd2]

theorem activate_succ (fuel : Nat) (t : ConnectionTable) (o : QObjectId) (n : Notification) :
    QMetaObject.activate (fuel + 1) t o n
      = (⟨o, n⟩ :: (deliverAll
            (fun c => QMetaObject.activate fuel t c.receiver ⟨c.member, n.args⟩)
            (t.filter (fun c => decide (c.sender = o ∧ c.signal = n.signal)))).1,
         (deliverAll
            (fun c => QMetaObject.activate fuel t c.receiver ⟨c.member, n.args⟩)
            (t.filter (fun c => decide (c.sender = o ∧ c.signal = n.signal)))).2) := rfl

/-- A delivery that returned within some depth is the same at every larger
depth: the result does not depend on the bound once it is large enough. -/
theorem activate_returned_succ (fuel : Nat) (t : ConnectionTable) (o : QObjectId)
    (n : Notification) (h : (QMetaObject.activate fuel t o n).2 = true) :
    QMetaObject.activate (fuel + 1) t o n = QMetaObject.activate fuel t o n := by
  induction fuel generalizing o n with
  | zero => simp [QMetaObject.activate] at h
  | succ f ih =>
    rw [activate_succ] at h
    have hall := (deliverAll_returns_iff _ _).mp h
    rw [activate_succ (f + 1), activate_succ f]
    have hc := deliverAll_congr
      (fun c => QMetaObject.activate (f + 1) t c.receiver ⟨c.member, n.args⟩)
      (fun c => QMetaObject.activate f t c.receiver ⟨c.member, n.args⟩)
      (t.filter (fun c => decide (c.sender = o ∧ c.signal = n.signal)))
      (fun c hc => ih c.receiver ⟨c.member, n.args⟩ (hall c hc))
    rw [hc]

theorem activate_returned_le (f F : Nat) (t : ConnectionTable) (o : QObjectId)
    (n : Notification) (hle : f ≤ F) (h : (QMetaObject.activate f t o n).2 = true) :
    QMetaObject.activate F t o n = QMetaObject.activate f t o n := by
  induction F with
  | zero =>
    have : f = 0 := by omega
    subst this
    rfl
  | succ F ih =>
    by_cases hf : f = F + 1
    · subst hf
      rfl
    · have hle1 : f ≤ F := by omega
      have h1 := ih hle1
      rw [activate_returned_succ F t o n (by rw [h1]; exact h), h1]

theorem head_mem_activate (fuel : Nat) (t : ConnectionTable) (o : QObjectId)
    (n : Notification) : (⟨o, n⟩ : Emission) ∈ (QMetaObject.activate (fuel + 1) t o n).1 := by
  rw [activate_succ]
  exact List.mem_cons_self _ _

/-- Reaching a connection: when every other connection of the emitted signal
returns within depth f, whatever the delivery of the connection c emits is
emitted by the delivery of the signal, after the first emission. -/
theorem activate_reach (f F : Nat) (t : ConnectionTable) (o : QObjectId) (n : Notification)
    (c : Connection) (hc : c ∈ t) (hs : c.sender = o) (hk : c.signal = n.signal)
    (hret : ∀ d ∈ t, d.sender = o → d.signal = n.signal → d ≠ c →
      (QMetaObject.activate f t d.receiver ⟨d.member, n.args⟩).2 = true)
    (hle : f ≤ F) (x : Emission)
    (hx : x ∈ (QMetaObject.activate F t c.receiver ⟨c.member, n.args⟩).1) :
    x ∈ ((QMetaObject.activate (F + 1) t o n).1).tail := by
  rw [activate_succ]
  simp only [List.tail_cons]
  apply deliverAll_reach _ _ c (by simp [List.mem_filter, hc, hs, hk]) _ x hx
  intro d hd hdc
  have hd1 := List.mem_filter.mp hd
  have hd2 : d.sender = o ∧ d.signal = n.signal := by simpa using hd1.2
  have h0 := hret d hd1.1 hd2.1 hd2.2 hdc
  show (QMetaObject.activate F t d.receiver ⟨d.member, n.args⟩).2 = true
  rw [activate_returned_le f F t d.receiver ⟨d.member, n.args⟩ hle h0]
  exact h0

theorem length_activate_of_not_returned (N : Nat) (t : ConnectionTable) (o : QObjectId)
    (n : Notification) (h : (QMetaObject.activate N t o n).2 = false) :
    N ≤ (QMetaObject.activate N t o n).1.length := by
  induction N generalizing o n with
  | zero => exact Nat.zero_le _
  | succ N ih =>
    rw [activate_succ] at h
    obtain ⟨c, _, hc2, hlen⟩ := deliverAll_length_of_not_returned _ _ h
    have := ih c.receiver ⟨c.member, n.args⟩ hc2
    rw [activate_succ]
    simp only [List.length_cons]
    omega

theorem activate_cycle_not_returned (t : ConnectionTable) (a b : QObjectId) (k : Signal)
    (args : Args) (hab : (⟨a, k, b, k⟩ : Connection) ∈ t)
    (hba : (⟨b, k, a, k⟩ : Connection) ∈ t) (N : Nat) :
    (QMetaObject.activate N t a ⟨k, args⟩).2 = false
      ∧ (QMetaObject.activate N t b ⟨k, args⟩).2 = false := by
  induction N with
  | zero => exact ⟨rfl, rfl⟩
  | succ N ih =>
    constructor
    · rw [activate_succ]
      cases hv : (deliverAll
        (fun c => QMetaObject.activate N t c.receiver ⟨c.member, args⟩)
        (t.filter (fun c => decide (c.sender = a ∧ c.signal = k)))).2 with
      | false => rfl
      | true =>
        have := (deliverAll_returns_iff _ _).mp hv ⟨a, k, b, k⟩
          (by simp [List.mem_filter, hab])
        simp only at this
        rw [ih.2] at this
        cases this
    · rw [activate_succ]
      cases hv : (deliverAll
        (fun c => QMetaObject.activate N t c.receiver ⟨c.member, args⟩)
        (t.filter (fun c => decide (c.sender = b ∧ c.signal = k)))).2 with
      | false => rfl
      | true =>
        have := (deliverAll_returns_iff _ _).mp hv ⟨b, k, a, k⟩
          (by simp [List.mem_filter, hba])
        simp only at this
        rw [ih.1] at this
        cases this

theorem eq_of_mem_bridge_of_sender (a b : QObjectId) (k : Signal) (d : Connection)
    (hd : d ∈ bridge a b) (hs : d.sender = a) (hk : d.signal = k) : d = ⟨a, k, b, k⟩ := by
  simp only [bridge, forwardings, List.mem_append, List.mem_map] at hd
  rcases hd with ⟨k1, _, rfl⟩ | ⟨k1, _, rfl⟩
  · simp only at hk
    rw [hk]
  · simp only at hk hs
    rw [hk, hs]

theorem mem_syncServers_of_sender (a b : QObjectId) (t : ConnectionTable) (k : Signal)
    (d : Connection) (hd : d ∈ (IServer.syncServers a b t).2) (hs : d.sender = a)
    (hk : d.signal = k) : d ∈ t ∨ d = ⟨a, k, b, k⟩ := by
  rw [syncServers_table, mem_foldl_uniqueAdd] at hd
  rcases hd with h | h
  · exact Or.inl h
  · exact Or.inr (eq_of_mem_bridge_of_sender a b k d h hs hk)

theorem mem_syncServers_of_receiver_side (a b : QObjectId) (t : ConnectionTable) (k : Signal)
    (d : Connection) (hd : d ∈ (IServer.syncServers a b t).2) (hs : d.sender = b)
    (hk : d.signal = k) : d ∈ t ∨ d = ⟨b, k, a, k⟩ := by
  rw [syncServers_table, mem_foldl_uniqueAdd] at hd
  rcases hd with h | h
  · exact Or.inl h
  · exact Or.inr (eq_of_mem_bridge_of_sender b a k d ((mem_bridge_comm a b d).mp h) hs hk)

theorem syncServers_twice_table (a b : QObjectId) (t : ConnectionTable) :
    (IServer.syncServers a b (IServer.syncServers a b t).2).2
      = (IServer.syncServers a b t).2 := by
  rw [syncServers_table (t := (IServer.syncServers a b t).2)]
  apply foldl_uniqueAdd_of_mem
  intro c hc
  rw [syncServers_table, mem_foldl_uniqueAdd]
  exact Or.inr hc

theorem syncServersFunct_connect_flag (src dsc : QObjectId) (t : ConnectionTable)
    (hm : (⟨src, Signal.startedConnect, dsc, Signal.startedConnect⟩ : Connection) ∈ t) :
    (syncServersFunct src dsc ⟨true⟩ t).1 = false := by
  have r1 : (connectFunct.call ⟨true⟩ src Signal.startedConnect dsc Signal.startedConnect
      ConnectionType.UniqueConnection t).1 = false := by
    simp [connectFunct.call, QObject.connect, hm]
  simp only [syncServersFunct, r1, Bool.false_and]

theorem syncServers_again_not_verified (a b : QObjectId) (t : ConnectionTable) :
    (IServer.syncServers a b (IServer.syncServers a b t).2).1 = false := by
  have hm : (⟨a, Signal.startedConnect, b, Signal.startedConnect⟩ : Connection)
      ∈ (IServer.syncServers a b t).2 := by
    rw [syncServers_table, mem_foldl_uniqueAdd]
    exact Or.inr (mem_bridge_left a b _ (by decide))
  generalize (IServer.syncServers a b t).2 = u at hm
  have hflag := syncServersFunct_connect_flag a b u hm
  simp only [IServer.syncServers, hflag, Bool.false_and]

/-! ## The synchronisation of two servers -/

/-- C4 (as stated, refuted): the table holds one forwarding a caller added
directly, startedConnect of object 1 to startedConnect of object 2; after
syncServers(1, 2) and unSyncServers(1, 2) that forwarding is gone. -/
theorem C4_counterexample :
    ¬ ((IServer.unSyncServers 1 2
          (IServer.syncServers 1 2
            [⟨1, Signal.startedConnect, 2, Signal.startedConnect⟩]).2).2
        = [⟨1, Signal.startedConnect, 2, Signal.startedConnect⟩]) := by
  rw [unSync_after_sync_table]
  decide

/-- C4 (amended): when the table holds none of the twenty forwardings of the
ten mirrored signals between a and b, syncServers(a, b) followed by
unSyncServers(a, b) gives back exactly the table, order included. -/
theorem C4_unsync_after_sync (a b : QObjectId) (t : ConnectionTable)
    (h : ∀ c ∈ t, c ∉ bridge a b) :
    (IServer.unSyncServers a b (IServer.syncServers a b t).2).2 = t := by
  rw [unSync_after_sync_table, List.filter_eq_self]
  intro c hc
  simpa using h c hc

/-- C4 witness: a table holding only the forwarding a master server registered
over its driver satisfies the hypothesis, and the round trip returns it. -/
theorem C4_unsync_after_sync_witness :
    (∀ c ∈ ([⟨7, Signal.itemUpdated, 1, Signal.itemUpdated⟩] : ConnectionTable),
        c ∉ bridge 1 2)
      ∧ (IServer.unSyncServers 1 2
          (IServer.syncServers 1 2 [⟨7, Signal.itemUpdated, 1, Signal.itemUpdated⟩]).2).2
        = [⟨7, Signal.itemUpdated, 1, Signal.itemUpdated⟩] :=
  ⟨by decide, C4_unsync_after_sync 1 2 _ (by decide)⟩

/-- C5: for every pair of servers and every table without repeated entries (a
forwarding set), syncServers called twice leaves the same table as called
once, and in it each of the twenty forwardings of the ten mirrored signals,
both directions, occurs exactly once; the table still has no repeated entry. -/
theorem C5_sync_idempotent (a b : QObjectId) (t : ConnectionTable) (h : t.Nodup) :
    (IServer.syncServers a b (IServer.syncServers a b t).2).2 = (IServer.syncServers a b t).2
      ∧ (∀ c ∈ bridge a b,
          ((IServer.syncServers a b (IServer.syncServers a b t).2).2).count c = 1)
      ∧ ((IServer.syncServers a b (IServer.syncServers a b t).2).2).Nodup := by
  have hidem := syncServers_twice_table a b t
  have hcount : ∀ x, ((IServer.syncServers a b t).2).count x ≤ 1 := by
    intro x
    rw [syncServers_table, count_foldl_uniqueAdd]
    by_cases hx : x ∈ t
    · simp only [hx, if_true]
      exact List.nodup_iff_count_le_one.mp h x
    · by_cases hb : x ∈ bridge a b <;> simp [hx, hb]
  refine ⟨hidem, ?_, ?_⟩
  · intro c hc
    rw [hidem, syncServers_table, count_foldl_uniqueAdd]
    by_cases hx : c ∈ t
    · simp only [hx, if_true]
      exact List.count_eq_one_of_mem h hx
    · simp [hx, hc]
  · rw [hidem]
    exact List.nodup_iff_count_le_one.mpr hcount

/-- C5 witness: a table with one mirrored forwarding already present and one
unrelated forwarding has no repeated entry. -/
theorem C5_sync_idempotent_witness :
    ([⟨1, Signal.startedConnect, 2, Signal.startedConnect⟩,
      ⟨7, Signal.itemUpdated, 1, Signal.itemUpdated⟩] : ConnectionTable).Nodup
      ∧ ((IServer.syncServers 1 2 (IServer.syncServers 1 2
            [⟨1, Signal.startedConnect, 2, Signal.startedConnect⟩,
             ⟨7, Signal.itemUpdated, 1, Signal.itemUpdated⟩]).2).2
          = (IServer.syncServers 1 2
            [⟨1, Signal.startedConnect, 2, Signal.startedConnect⟩,
             ⟨7, Signal.itemUpdated, 1, Signal.itemUpdated⟩]).2
        ∧ (∀ c ∈ bridge 1 2,
            ((IServer.syncServers 1 2 (IServer.syncServers 1 2
              [⟨1, Signal.startedConnect, 2, Signal.startedConnect⟩,
               ⟨7, Signal.itemUpdated, 1, Signal.itemUpdated⟩]).2).2).count c = 1)
        ∧ ((IServer.syncServers 1 2 (IServer.syncServers 1 2
              [⟨1, Signal.startedConnect, 2, Signal.startedConnect⟩,
               ⟨7, Signal.itemUpdated, 1, Signal.itemUpdated⟩]).2).2).Nodup) :=
  ⟨by decide, C5_sync_idempotent 1 2 _ (by decide)⟩

/-- After syncServers(s1, s2) the emit of startedConnect in s1.connect() returns
within no depth: the body does not reach the statements after it. -/
theorem connect_after_sync_not_returned (s1 s2 : IServer) (t : ConnectionTable) (N : Nat) :
    (IServer.emissions N (IServer.syncServers s1.self s2.self t).2 s1 s1.connect).2 = false := by
  have hab : (⟨s1.self, Signal.startedConnect, s2.self, Signal.startedConnect⟩ : Connection)
      ∈ (IServer.syncServers s1.self s2.self t).2 := by
    rw [syncServers_table, mem_foldl_uniqueAdd]
    exact Or.inr (mem_bridge_left _ _ _ (by decide))
  have hba : (⟨s2.self, Signal.startedConnect, s1.self, Signal.startedConnect⟩ : Connection)
      ∈ (IServer.syncServers s1.self s2.self t).2 := by
    rw [syncServers_table, mem_foldl_uniqueAdd]
    exact Or.inr (mem_bridge_right _ _ _ (by decide))
  have hnr := (activate_cycle_not_returned _ s1.self s2.self Signal.startedConnect
    (Args.ConnectInfoRequest {}) hab hba N).1
  simp [IServer.connect, IServer.emissions, hnr]

set_option maxRecDepth 8000 in
/-- The proviso on the earlier forwardings is needed: when server 1 was
synchronised with server 3 before it is synchronised with server 2, the
delivery of startedConnect of server 1 goes round between 1 and 3 and, to
whatever depth, no emission by server 2 is made. -/
theorem earlier_cycle_blocks_bridge (args : Args) (N : Nat) :
    (∀ x ∈ (QMetaObject.activate N
        (IServer.syncServers 1 2 (IServer.syncServers 1 3 []).2).2 1
        ⟨Signal.startedConnect, args⟩).1, x.object ≠ 2)
      ∧ (∀ x ∈ (QMetaObject.activate N
        (IServer.syncServers 1 2 (IServer.syncServers 1 3 []).2).2 3
        ⟨Signal.startedConnect, args⟩).1, x.object ≠ 2) := by
  have hL1 : ((IServer.syncServers 1 2 (IServer.syncServers 1 3 []).2).2.filter
      (fun c => decide (c.sender = 1 ∧ c.signal = Signal.startedConnect)))
      = [⟨1, Signal.startedConnect, 3, Signal.startedConnect⟩,
         ⟨1, Signal.startedConnect, 2, Signal.startedConnect⟩] := by decide
  have hL3 : ((IServer.syncServers 1 2 (IServer.syncServers 1 3 []).2).2.filter
      (fun c => decide (c.sender = 3 ∧ c.signal = Signal.startedConnect)))
      = [⟨3, Signal.startedConnect, 1, Signal.startedConnect⟩] := by decide
  have h13 : (⟨1, Signal.startedConnect, 3, Signal.startedConnect⟩ : Connection)
      ∈ (IServer.syncServers 1 2 (IServer.syncServers 1 3 []).2).2 := by decide
  have h31 : (⟨3, Signal.startedConnect, 1, Signal.startedConnect⟩ : Connection)
      ∈ (IServer.syncServers 1 2 (IServer.syncServers 1 3 []).2).2 := by decide
  generalize (IServer.syncServers 1 2 (IServer.syncServers 1 3 []).2).2 = v
    at hL1 hL3 h13 h31
  induction N with
  | zero => simp [QMetaObject.activate]
  | succ N ih =>
    have hnr := activate_cycle_not_returned v 1 3 Signal.startedConnect args h13 h31 N
    constructor
    · intro x hx
      rw [activate_succ] at hx
      simp only [hL1, deliverAll, hnr.2, List.mem_cons] at hx
      rcases hx with h | h
      · rw [h]
        simp
      · exact ih.2 x (by simpa using h)
    · intro x hx
      rw [activate_succ] at hx
      simp only [hL3, deliverAll, hnr.1, List.mem_cons] at hx
      rcases hx with h | h
      · rw [h]
        simp
      · exact ih.1 x (by simpa using h)

/-- C10: after syncServers(a, b), for each of the ten mirrored signals k and
every earlier table, the table holds both the forwarding of k from a to b and
the one from b to a; the delivery of one emission of k by a returns within no
depth N and makes at least N emissions to depth N, so no finite number bounds
it. When the other forwardings of k of a and of b that the earlier table
holds return (within some depth f, over the table after the call), the
emission of k by a makes a emit k again. This holds whether or not a and b
differ. -/
theorem C10_forwarding_cycle (a b : QObjectId) (t : ConnectionTable) (k : Signal)
    (hk : k ∈ mirroredSignals) (args : Args) (f : Nat) :
    (⟨a, k, b, k⟩ : Connection) ∈ (IServer.syncServers a b t).2
      ∧ (⟨b, k, a, k⟩ : Connection) ∈ (IServer.syncServers a b t).2
      ∧ ((∀ d ∈ t, d.sender = a → d.signal = k → d ≠ ⟨a, k, b, k⟩ →
            (QMetaObject.activate f (IServer.syncServers a b t).2 d.receiver
              ⟨d.member, args⟩).2 = true) →
          (∀ d ∈ t, d.sender = b → d.signal = k → d ≠ ⟨b, k, a, k⟩ →
            (QMetaObject.activate f (IServer.syncServers a b t).2 d.receiver
              ⟨d.member, args⟩).2 = true) →
          ∀ F, f ≤ F →
            2 ≤ ((QMetaObject.activate (F + 3) (IServer.syncServers a b t).2 a
              ⟨k, args⟩).1).count ⟨a, ⟨k, args⟩⟩)
      ∧ (∀ N, (QMetaObject.activate N (IServer.syncServers a b t).2 a ⟨k, args⟩).2 = false
          ∧ N ≤ ((QMetaObject.activate N (IServer.syncServers a b t).2 a
              ⟨k, args⟩).1).length) := by
  have hab : (⟨a, k, b, k⟩ : Connection) ∈ (IServer.syncServers a b t).2 := by
    rw [syncServers_table, mem_foldl_uniqueAdd]
    exact Or.inr (mem_bridge_left a b k hk)
  have hba : (⟨b, k, a, k⟩ : Connection) ∈ (IServer.syncServers a b t).2 := by
    rw [syncServers_table, mem_foldl_uniqueAdd]
    exact Or.inr (mem_bridge_right a b k hk)
  refine ⟨hab, hba, ?_, ?_⟩
  · intro hra hrb F hle
    have hra1 : ∀ d ∈ (IServer.syncServers a b t).2, d.sender = a →
        d.signal = (⟨k, args⟩ : Notification).signal → d ≠ ⟨a, k, b, k⟩ →
        (QMetaObject.activate f (IServer.syncServers a b t).2 d.receiver
          ⟨d.member, (⟨k, args⟩ : Notification).args⟩).2 = true := by
      intro d hd hs hsig hne
      rcases mem_syncServers_of_sender a b t k d hd hs hsig with h | h
      · exact hra d h hs hsig hne
      · exact absurd h hne
    have hrb1 : ∀ d ∈ (IServer.syncServers a b t).2, d.sender = b →
        d.signal = (⟨k, args⟩ : Notification).signal → d ≠ ⟨b, k, a, k⟩ →
        (QMetaObject.activate f (IServer.syncServers a b t).2 d.receiver
          ⟨d.member, (⟨k, args⟩ : Notification).args⟩).2 = true := by
      intro d hd hs hsig hne
      rcases mem_syncServers_of_receiver_side a b t k d hd hs hsig with h | h
      · exact hrb d h hs hsig hne
      · exact absurd h hne
    generalize (IServer.syncServers a b t).2 = u at hab hba hra1 hrb1
    have h0 : (⟨a, ⟨k, args⟩⟩ : Emission) ∈ (QMetaObject.activate (F + 1) u a ⟨k, args⟩).1 :=
      head_mem_activate F u a ⟨k, args⟩
    have h1 : (⟨a, ⟨k, args⟩⟩ : Emission)
        ∈ ((QMetaObject.activate (F + 2) u b ⟨k, args⟩).1).tail :=
      activate_reach f (F + 1) u b ⟨k, args⟩ ⟨b, k, a, k⟩ hba rfl rfl hrb1 (by omega) _ h0
    have h2 : (⟨a, ⟨k, args⟩⟩ : Emission)
        ∈ ((QMetaObject.activate (F + 3) u a ⟨k, args⟩).1).tail :=
      activate_reach f (F + 2) u a ⟨k, args⟩ ⟨a, k, b, k⟩ hab rfl rfl hra1 (by omega) _
        (List.mem_of_mem_tail h1)
    have hcons : (QMetaObject.activate (F + 3) u a ⟨k, args⟩).1
        = ⟨a, ⟨k, args⟩⟩ :: ((QMetaObject.activate (F + 3) u a ⟨k, args⟩).1).tail := by
      rw [activate_succ, List.tail_cons]
    rw [hcons, List.count_cons_self]
    have h3 : 0 < (((QMetaObject.activate (F + 3) u a ⟨k, args⟩).1).tail).count
        ⟨a, ⟨k, args⟩⟩ := List.count_pos_iff.mpr h2
    omega
  · intro N
    have hnr := (activate_cycle_not_returned _ a b k args hab hba N).1
    exact ⟨hnr, length_activate_of_not_returned N _ a ⟨k, args⟩ hnr⟩

/-- C10 witness: startedConnect is a mirrored signal; the earlier table
forwards startedConnect of server 1 to an object 5 and that of server 2 to an
object 6, which forward nothing, so both deliveries return within depth 1. -/
theorem C10_forwarding_cycle_witness :
    Signal.startedConnect ∈ mirroredSignals
      ∧ (∀ d ∈ ([⟨1, Signal.startedConnect, 5, Signal.startedConnect⟩,
                 ⟨2, Signal.startedConnect, 6, Signal.startedConnect⟩] : ConnectionTable),
          d.sender = 1 → d.signal = Signal.startedConnect →
          d ≠ ⟨1, Signal.startedConnect, 2, Signal.startedConnect⟩ →
          (QMetaObject.activate 1
            (IServer.syncServers 1 2 [⟨1, Signal.startedConnect, 5, Signal.startedConnect⟩,
              ⟨2, Signal.startedConnect, 6, Signal.startedConnect⟩]).2
            d.receiver ⟨d.member, Args.ConnectInfoRequest {}⟩).2 = true)
      ∧ (∀ d ∈ ([⟨1, Signal.startedConnect, 5, Signal.startedConnect⟩,
                 ⟨2, Signal.startedConnect, 6, Signal.startedConnect⟩] : ConnectionTable),
          d.sender = 2 → d.signal = Signal.startedConnect →
          d ≠ ⟨2, Signal.startedConnect, 1, Signal.startedConnect⟩ →
          (QMetaObject.activate 1
            (IServer.syncServers 1 2 [⟨1, Signal.startedConnect, 5, Signal.startedConnect⟩,
              ⟨2, Signal.startedConnect, 6, Signal.startedConnect⟩]).2
            d.receiver ⟨d.member, Args.ConnectInfoRequest {}⟩).2 = true)
      ∧ 2 ≤ ((QMetaObject.activate 4
            (IServer.syncServers 1 2 [⟨1, Signal.startedConnect, 5, Signal.startedConnect⟩,
              ⟨2, Signal.startedConnect, 6, Signal.startedConnect⟩]).2 1
            ⟨Signal.startedConnect, Args.ConnectInfoRequest {}⟩).1).count
              ⟨1, ⟨Signal.startedConnect, Args.ConnectInfoRequest {}⟩⟩
      ∧ (∀ N, (QMetaObject.activate N
            (IServer.syncServers 1 2 [⟨1, Signal.startedConnect, 5, Signal.startedConnect⟩,
              ⟨2, Signal.startedConnect, 6, Signal.startedConnect⟩]).2 1
            ⟨Signal.startedConnect, Args.ConnectInfoRequest {}⟩).2 = false
          ∧ N ≤ ((QMetaObject.activate N
            (IServer.syncServers 1 2 [⟨1, Signal.startedConnect, 5, Signal.startedConnect⟩,
              ⟨2, Signal.startedConnect, 6, Signal.startedConnect⟩]).2 1
            ⟨Signal.startedConnect, Args.ConnectInfoRequest {}⟩).1).length) :=
  ⟨by decide, by decide, by decide,
   (C10_forwarding_cycle 1 2 _ Signal.startedConnect (by decide)
      (Args.ConnectInfoRequest {}) 1).2.2.1 (by decide) (by decide) 1 (Nat.le_refl 1),
   (C10_forwarding_cycle 1 2 _ Signal.startedConnect (by decide)
      (Args.ConnectInfoRequest {}) 1).2.2.2⟩

/-! ## The constructor -/

/-- C8: constructing a server over the driver drv with isMaster true appends
exactly two connections to the table, addedChild of drv to addedChild of the
server and itemUpdated of drv to itemUpdated of the server; with isMaster
false the table is unchanged. Every itemUpdated(x, s) drv emits is then
emitted by the server with the same arguments, provided the forwardings of
itemUpdated of drv that the earlier table holds return (within some depth f,
over the table after the construction). Over an empty earlier table, with the
server and the driver two objects, the delivery is the emission by drv, then
the one by the server, and it returns. -/
theorem C8_master_forwarding (self drv : QObjectId) (t : ConnectionTable)
    (x : FastoObject) (str : String) (f : Nat) :
    (IServer.ctor self drv true t).table
        = t ++ [⟨drv, Signal.addedChild, self, Signal.addedChild⟩,
                ⟨drv, Signal.itemUpdated, self, Signal.itemUpdated⟩]
      ∧ ((∀ d ∈ t, d.sender = drv → d.signal = Signal.itemUpdated →
            d ≠ ⟨drv, Signal.itemUpdated, self, Signal.itemUpdated⟩ →
            (QMetaObject.activate f (IServer.ctor self drv true t).table d.receiver
              ⟨d.member, Args.objectText x str⟩).2 = true) →
          ∀ F, f ≤ F →
            (⟨self, ⟨Signal.itemUpdated, Args.objectText x str⟩⟩ : Emission)
              ∈ (QMetaObject.activate (F + 2) (IServer.ctor self drv true t).table drv
                  ⟨Signal.itemUpdated, Args.objectText x str⟩).1)
      ∧ (self ≠ drv → ∀ F,
          QMetaObject.activate (F + 2) (IServer.ctor self drv true []).table drv
              ⟨Signal.itemUpdated, Args.objectText x str⟩
            = ([⟨drv, ⟨Signal.itemUpdated, Args.objectText x str⟩⟩,
                ⟨self, ⟨Signal.itemUpdated, Args.objectText x str⟩⟩], true))
      ∧ (IServer.ctor self drv false t).table = t
      ∧ (IServer.ctor self drv true t).server = ⟨self, drv, true⟩
      ∧ (IServer.ctor self drv false t).server = ⟨self, drv, false⟩ := by
  have htab : ∀ u : ConnectionTable, (IServer.ctor self drv true u).table
      = u ++ [⟨drv, Signal.addedChild, self, Signal.addedChild⟩,
              ⟨drv, Signal.itemUpdated, self, Signal.itemUpdated⟩] := by
    intro u
    simp [IServer.ctor, QObject.connect]
  refine ⟨htab t, ?_, ?_, rfl, rfl, rfl⟩
  · intro hret F hle
    apply List.mem_of_mem_tail
    apply activate_reach f (F + 1) _ drv ⟨Signal.itemUpdated, Args.objectText x str⟩
      ⟨drv, Signal.itemUpdated, self, Signal.itemUpdated⟩ (by rw [htab]; simp) rfl rfl _
      (by omega) _ (head_mem_activate _ _ _ _)
    intro d hd hs hk hne
    rw [htab] at hd
    rcases List.mem_append.mp hd with h | h
    · exact hret d h hs hk hne
    · simp only [List.mem_cons, List.mem_singleton, List.not_mem_nil, or_false] at h
      rcases h with h | h
      · rw [h] at hk
        cases hk
      · exact absurd h hne
  · intro hne F
    have hne1 : ¬ drv = self := fun h => hne h.symm
    rw [htab]
    simp [activate_succ, deliverAll, List.filter, hne1]

/-- C8 witness: the earlier table is the one left by constructing a master
server 20 over the same driver 7; server 20 forwards nothing, so the delivery
to it returns within depth 1. -/
theorem C8_master_forwarding_witness :
    (∀ d ∈ (IServer.ctor 20 7 true []).table, d.sender = 7 → d.signal = Signal.itemUpdated →
        d ≠ ⟨7, Signal.itemUpdated, 30, Signal.itemUpdated⟩ →
        (QMetaObject.activate 1 (IServer.ctor 30 7 true (IServer.ctor 20 7 true []).table).table
          d.receiver ⟨d.member, Args.objectText 3 "foo"⟩).2 = true)
      ∧ (⟨30, ⟨Signal.itemUpdated, Args.objectText 3 "foo"⟩⟩ : Emission)
        ∈ (QMetaObject.activate 3
            (IServer.ctor 30 7 true (IServer.ctor 20 7 true []).table).table 7
            ⟨Signal.itemUpdated, Args.objectText 3 "foo"⟩).1
      ∧ (30 : QObjectId) ≠ 7
      ∧ QMetaObject.activate 3 (IServer.ctor 30 7 true []).table 7
            ⟨Signal.itemUpdated, Args.objectText 3 "foo"⟩
          = ([⟨7, ⟨Signal.itemUpdated, Args.objectText 3 "foo"⟩⟩,
              ⟨30, ⟨Signal.itemUpdated, Args.objectText 3 "foo"⟩⟩], true) :=
  ⟨by decide,
   (C8_master_forwarding 30 7 (IServer.ctor 20 7 true []).table 3 "foo" 1).2.1
      (by decide) 1 (Nat.le_refl 1),
   by decide,
   (C8_master_forwarding 30 7 [] 3 "foo" 1).2.2.1 (by decide) 1⟩

end fastoredis
